import Mathlib

/-!
Verification development for the HK-stock dashboard repository
(`src/utils.py`, `src/app.py`).

Strings of the Python source are modelled as `List Char`; Python's
`int(str)` parser, `str.strip()`, `str.replace('.HK','')`, f-string
zero-padding and suffix tests are embedded as executable Lean
functions below.  The model restricts Python's `int` to ASCII digits
(with the usual optional sign and the underscore-separator rule) and
`strip` to ASCII whitespace; no input in this repository's data flow
uses non-ASCII digits or exotic whitespace.  Numeric indicator values
are modelled as rationals, pandas data frames as a row count together
with named columns of optional rationals (`none` = NaN cell), and the
external providers (yfinance, the ta indicator library, the Sina text
endpoint, the file system) as explicit function arguments, so every
repository-level function is a total, executable Lean definition.
-/

/-- Numeric value of an ASCII digit character (`'0'` ↦ 0, …, `'9'` ↦ 9). -/
def digitVal (c : Char) : Nat := c.toNat - 48

/-- Tail of Python's base-10 integer parser: consumes the remaining
characters after at least one digit has been read into `acc`.
A single `'_'` is allowed between two digits (Python's numeric-literal
underscore rule); anything else fails. -/
def parseRest (acc : Nat) : List Char → Option Nat
  | [] => some acc
  | c :: cs =>
    if c = '_' then
      match cs with
      | [] => none
      | c2 :: cs2 => if c2.isDigit then parseRest (acc * 10 + digitVal c2) cs2 else none
    else if c.isDigit then parseRest (acc * 10 + digitVal c) cs
    else none

/-- Python's digit-sequence parser: at least one digit, underscores
only between digits. -/
def parseDigits : List Char → Option Nat
  | [] => none
  | c :: cs => if c.isDigit then parseRest (digitVal c) cs else none

/-- Python `str.strip()`: remove whitespace from both ends. -/
def pyStrip (s : List Char) : List Char :=
  ((s.dropWhile Char.isWhitespace).reverse.dropWhile Char.isWhitespace).reverse

/-- Python `int(s)` for base 10: strip whitespace, optional single
sign, then a digit sequence; `none` models `ValueError`. -/
def pyInt (s : List Char) : Option Int :=
  if (pyStrip s).head? = some '+' then (parseDigits (pyStrip s).tail).map Int.ofNat
  else if (pyStrip s).head? = some '-' then (parseDigits (pyStrip s).tail).map (fun n => -(Int.ofNat n))
  else (parseDigits (pyStrip s)).map Int.ofNat

/-- Python `s.replace('.HK', '')`: delete every non-overlapping
occurrence of `".HK"`, scanning left to right. -/
def stripHK : List Char → List Char
  | '.' :: 'H' :: 'K' :: rest => stripHK rest
  | c :: rest => c :: stripHK rest
  | [] => []

/-- Worker for `natToDigits`; `fuel` only forces structural
termination and is always large enough at call sites. -/
def natToDigitsAux (fuel : Nat) (n : Nat) : List Char :=
  match fuel with
  | 0 => []
  | fuel + 1 =>
    if n < 10 then [Nat.digitChar n]
    else natToDigitsAux fuel (n / 10) ++ [Nat.digitChar (n % 10)]

/-- Decimal digits of a natural number, most significant first. -/
def natToDigits (n : Nat) : List Char := natToDigitsAux (n + 1) n

/-- Left-pad a digit string with `'0'` to width `w`. -/
def zeroPad (w : Nat) (ds : List Char) : List Char :=
  List.replicate (w - ds.length) '0' ++ ds

/-- Python `f"{n:0wd}"`: zero-pad the decimal form of `n` to total
width `w`, the sign (for negative `n`) counting toward the width. -/
def fmtIntPad (w : Nat) (n : Int) : List Char :=
  if n < 0 then '-' :: zeroPad (w - 1) (natToDigits n.natAbs)
  else zeroPad w (natToDigits n.toNat)

/-- The exchange suffix `".HK"` as a character list. -/
def hkSuffix : List Char := ['.', 'H', 'K']

/-- `format_hk_ticker` from `src/utils.py`: remove every `".HK"`,
strip whitespace, try to parse the remainder as an integer; on
success return the integer zero-padded to four digits with `".HK"`
appended, on failure return the original string, appending `".HK"`
unless it already ends with it. -/
def format_hk_ticker (ticker : List Char) : List Char :=
  match pyInt (pyStrip (stripHK ticker)) with
  | some n => fmtIntPad 4 n ++ hkSuffix
  | none => if List.isSuffixOf hkSuffix ticker then ticker else ticker ++ hkSuffix

/-- The normalizer exactly as the claim words it: strip one
*trailing* `".HK"` suffix (only), parse the remainder as an integer,
and on failure append `".HK"` unless already suffixed. -/
def specNormalizeTrailing (ticker : List Char) : List Char :=
  let rem := if List.isSuffixOf hkSuffix ticker then ticker.dropLast.dropLast.dropLast else ticker
  match pyInt rem with
  | some n => fmtIntPad 4 n ++ hkSuffix
  | none => if List.isSuffixOf hkSuffix ticker then ticker else ticker ++ hkSuffix

/-- The normalizer as the amended claim words it: remove **all**
occurrences of `".HK"` and trim whitespace; if the remainder parses
as a base-10 integer the output is that integer zero-padded to four
digits followed by `".HK"`, otherwise the original string with
`".HK"` appended unless it already ends with `".HK"`. -/
def specNormalizeAmended (ticker : List Char) : List Char :=
  let rem := pyStrip (stripHK ticker)
  match pyInt rem with
  | some n => fmtIntPad 4 n ++ hkSuffix
  | none => if List.isSuffixOf hkSuffix ticker then ticker else ticker ++ hkSuffix

/-! ## Data frames and external providers -/

/-- A pandas `DataFrame` as used by this repository: a row count and
named columns of cells; a `none` cell is a NaN. -/
structure DataFrame where
  nrows : Nat
  cols : List (String × List (Option Rat))
deriving DecidableEq

/-- `df.empty` of pandas for the frames of this repository (rows
present or not). -/
def DataFrame.isEmpty (df : DataFrame) : Bool := df.nrows == 0

/-- Column lookup, `df[name]`; `none` when the column is absent. -/
def DataFrame.getCol (df : DataFrame) (name : String) : Option (List (Option Rat)) :=
  (df.cols.find? (fun p => p.1 == name)).map Prod.snd

/-- Column assignment `df[name] = vals`: overwrite an existing column
in place, otherwise append it after the existing columns. -/
def DataFrame.setCol (df : DataFrame) (name : String) (vals : List (Option Rat)) : DataFrame :=
  if df.cols.any (fun p => p.1 == name) then
    { df with cols := df.cols.map (fun p => if p.1 == name then (name, vals) else p) }
  else
    { df with cols := df.cols ++ [(name, vals)] }

/-- `hist['Close'].iloc[-1]` when it yields a number: last cell of the
`"Close"` column; `none` models the cases where that expression would
raise (missing column, no rows, NaN cell). -/
def DataFrame.lastClose (df : DataFrame) : Option Rat :=
  match df.getCol "Close" with
  | some l =>
    match l.getLast? with
    | some (some v) => some v
    | _ => none
  | none => none

/-- The off-the-shelf `ta` indicator library, which is an external
collaborator of this repository (its internals are not in `src/`):
one column-valued function per derived column used by
`calculate_technical_indicators`. -/
structure TaLib where
  sma : Nat → List (Option Rat) → List (Option Rat)
  bollinger_hband : List (Option Rat) → List (Option Rat)
  bollinger_lband : List (Option Rat) → List (Option Rat)
  bollinger_mavg : List (Option Rat) → List (Option Rat)
  rsi : Nat → List (Option Rat) → List (Option Rat)
  macd : List (Option Rat) → List (Option Rat)
  macd_signal : List (Option Rat) → List (Option Rat)
  macd_diff : List (Option Rat) → List (Option Rat)

/-- `calculate_technical_indicators` from `src/utils.py`: `None` and
zero-row frames are returned unchanged (the early `if df is None or
df.empty: return df`); otherwise the nine derived columns are
assigned from the `ta` library, in source order. -/
def calculate_technical_indicators (ta : TaLib) (df? : Option DataFrame) : Option DataFrame :=
  match df? with
  | none => none
  | some df =>
    if df.isEmpty then some df
    else
      let close := (df.getCol "Close").getD []
      some ((((((((
        (df.setCol "SMA_20" (ta.sma 20 close)).setCol
          "SMA_50" (ta.sma 50 close)).setCol
          "BB_High" (ta.bollinger_hband close)).setCol
          "BB_Low" (ta.bollinger_lband close)).setCol
          "BB_Mid" (ta.bollinger_mavg close)).setCol
          "RSI" (ta.rsi 14 close)).setCol
          "MACD" (ta.macd close)).setCol
          "MACD_Signal" (ta.macd_signal close)).setCol
          "MACD_Diff" (ta.macd_diff close))

/-- `get_stock_data` from `src/utils.py`, with the provider's
`Ticker(symbol).history(period, interval)` passed in as a function
whose `Except.error` outcome models a raised exception: the ticker is
normalized, a raised exception or an empty frame becomes `none`, and
a non-empty frame is returned as is. -/
def get_stock_data (history : String → String → String → Except String DataFrame)
    (ticker period interval : String) : Option DataFrame :=
  match history (String.mk (format_hk_ticker ticker.data)) period interval with
  | .error _ => none
  | .ok df => if df.isEmpty then none else some df

/-- The hardcoded fallback exchange rates of `get_exchange_rate`
(`src/utils.py` lines 340-345). -/
def hardcoded_rate (from_c to_c : String) : Rat :=
  if from_c = "HKD" ∧ to_c = "CNY" then 92 / 100
  else if from_c = "CNY" ∧ to_c = "HKD" then 109 / 100
  else 1

/-- `get_exchange_rate` from `src/utils.py`: equal currencies yield
`1.0` before any provider interaction; otherwise the `"FROMTO=X"`
pair is fetched, a non-empty history yields its last close, and a
raised exception, an empty history, or a failing `iloc` falls back to
the hardcoded constants. -/
def get_exchange_rate (history1d : String → Except String DataFrame)
    (from_c to_c : String) : Rat :=
  if from_c = to_c then 1
  else
    match history1d (from_c ++ to_c ++ "=X") with
    | .ok hist =>
      if hist.isEmpty then hardcoded_rate from_c to_c
      else
        match hist.lastClose with
        | some v => v
        | none => hardcoded_rate from_c to_c
    | .error _ => hardcoded_rate from_c to_c

/-! ## Sina name resolver (batching structure) -/

/-- The Sina lookup key built per ticker in `get_stock_names_sina`:
`t.replace('.HK','').strip()` parsed as an integer and formatted as
`f"hk{code:05d}"`; unparseable codes are skipped (`except: continue`). -/
def sina_code_of (t : String) : Option String :=
  match pyInt (pyStrip (stripHK t.data)) with
  | some n => some (String.mk ('h' :: 'k' :: fmtIntPad 5 n))
  | none => none

/-- The chunking loop `for i in range(0, len(sina_codes), 20)`:
successive slices of at most 20 codes. -/
def chunksOf20 (l : List String) : List (List String) :=
  match l with
  | [] => []
  | x :: xs => (x :: xs).take 20 :: chunksOf20 ((x :: xs).drop 20)
termination_by l.length
decreasing_by simp; omega

/-- The batch requests `get_stock_names_sina` issues: one URL per
chunk of at most 20 Sina codes.  Responses are handled per chunk with
failures caught, so every chunk's request is issued regardless of the
other chunks' outcomes; the issued request list therefore depends
only on the input codes and is what the batching claim is about. -/
def get_stock_names_sina_urls (tickers : List String) : List String :=
  let sina_codes := tickers.filterMap sina_code_of
  (chunksOf20 sina_codes).map
    (fun chunk => "http://hq.sinajs.cn/list=" ++ String.intercalate "," chunk)

/-! ## Ticker list store -/

/-- A parsed JSON document. -/
inductive JsonVal where
  | str : String → JsonVal
  | num : Rat → JsonVal
  | bool : Bool → JsonVal
  | null : JsonVal
  | arr : List JsonVal → JsonVal
  | obj : List (String × JsonVal) → JsonVal

/-- Field lookup in a JSON object, `data.get(key, default)` without
the default. -/
def lookupField : List (String × JsonVal) → String → Option JsonVal
  | [], _ => none
  | (k, v) :: rest, key => if k = key then some v else lookupField rest key

/-- `save_tickers_to_json` from `src/utils.py`: the file is
overwritten wholesale with `{"tickers": tickers}` (the success path;
a write failure leaves `False` and is not modelled as a file state). -/
def save_tickers_to_json (tickers : List String) : Option JsonVal :=
  some (JsonVal.obj [("tickers", JsonVal.arr (tickers.map JsonVal.str))])

/-- `load_tickers_from_json` from `src/utils.py`: a missing file
yields `None`; a parsed object yields `data.get('tickers', [])`; any
other document makes `data.get` raise, which is caught and yields
`None`. -/
def load_tickers_from_json (file : Option JsonVal) : Option JsonVal :=
  match file with
  | none => none
  | some (JsonVal.obj fields) => some ((lookupField fields "tickers").getD (JsonVal.arr []))
  | some _ => none

/-! ## Sidebar ticker adding (src/app.py) -/

/-- `add_ticker` from `src/app.py` restricted to its text-state
update: the new code is appended (space separated) unless it already
occurs as a *substring* of the current input text (Python's
`code not in current`). -/
def add_ticker (current code : String) : String :=
  if code.data <:+: current.data then current
  else current ++ " " ++ code

/-! ## Narrative rule engine (src/app.py, tab 1) -/

/-- The trend-regime branch of tab 1 (lines 300-311): the four
mutually exclusive `ma_status` labels, tested in source order.  The
labels are the source's strings: 多头排列 = "bullish alignment",
空头排列 = "bearish alignment", 短期反弹 = "short-term rebound",
短期回调 = "short-term pullback". -/
def ma_status (last_close sma20 sma50 : Rat) : String :=
  if last_close > sma20 ∧ last_close > sma50 then "多头排列"
  else if last_close < sma20 ∧ last_close < sma50 then "空头排列"
  else if last_close > sma20 then "短期反弹"
  else "短期回调"

/-- The composite score of tab 1 (lines 343-348), accumulated exactly
as in the source. -/
def composite_score (last_close prev_close sma20 sma50 rsi macd macd_signal : Rat) : Rat :=
  let score : Rat := 0
  let score := if last_close > sma20 then score + 1 else score
  let score := if last_close > sma50 then score + 1 else score
  let score := if rsi < 70 ∧ rsi > 40 then score + 1 else score
  let score := if macd > macd_signal then score + 1 else score
  let score := if last_close > prev_close then score + 1 / 2 else score
  score

/-- The composite score as the spec words it: a sum of five
independent signals. -/
def specScore (last_close prev_close sma20 sma50 rsi macd macd_signal : Rat) : Rat :=
  (if last_close > sma20 then (1 : Rat) else 0)
    + (if last_close > sma50 then 1 else 0)
    + (if 40 < rsi ∧ rsi < 70 then 1 else 0)
    + (if macd > macd_signal then 1 else 0)
    + (if last_close > prev_close then 1 / 2 else 0)

/-- The recommendation tiers of tab 1 (lines 350-356), keyed by the
source's labels: 积极看多 = "bullish", 谨慎观望 = "cautious/wait",
中性持有 = "neutral/hold". -/
def recommendation (score : Rat) : String :=
  if score ≥ 4 then "积极看多"
  else if score ≤ 1 then "谨慎观望"
  else "中性持有"

/-! ## Concrete instances used by counterexamples and witnesses -/

/-- A trivial indicator library: every derived cell undefined. -/
def taZero : TaLib :=
  ⟨fun _ l => l.map (fun _ => none), fun l => l.map (fun _ => none),
   fun l => l.map (fun _ => none), fun l => l.map (fun _ => none),
   fun _ l => l.map (fun _ => none), fun l => l.map (fun _ => none),
   fun l => l.map (fun _ => none), fun l => l.map (fun _ => none)⟩

/-- A zero-row OHLCV frame. -/
def emptyOHLCV : DataFrame :=
  ⟨0, [("Open", []), ("High", []), ("Low", []), ("Close", []), ("Volume", [])]⟩

/-- A second zero-row frame (close-only), for witness inputs. -/
def emptyCloseOnly : DataFrame := ⟨0, [("Close", [])]⟩

/-- A provider whose history always raises. -/
def providerRaises : String → String → String → Except String DataFrame :=
  fun _ _ _ => .error "provider failure"

/-- A provider whose history is always empty. -/
def providerEmpty : String → String → String → Except String DataFrame :=
  fun _ _ _ => .ok emptyOHLCV

/-- A one-row frame with closing price 80. -/
def oneRow80 : DataFrame := ⟨1, [("Close", [some 80])]⟩

/-- A provider that always returns the one-row frame `oneRow80`. -/
def providerOneRow80 : String → String → String → Except String DataFrame :=
  fun _ _ _ => .ok oneRow80

/-- A one-row frame quoting a last close of `-1`: a degenerate
upstream quote used to probe `get_exchange_rate`'s pass-through of
provider data. -/
def negQuoteFrame : DataFrame := ⟨1, [("Close", [some (-1)])]⟩

/-- An exchange-rate provider always returning `negQuoteFrame`. -/
def rateProviderNeg : String → Except String DataFrame :=
  fun _ => .ok negQuoteFrame

/-- An exchange-rate provider that always raises. -/
def rateProviderRaises : String → Except String DataFrame :=
  fun _ => .error "provider failure"

/-- An exchange-rate provider whose history is always empty. -/
def rateProviderEmpty : String → Except String DataFrame :=
  fun _ => .ok emptyOHLCV


/-! ## Character and parser lemmas -/

/-- A digit character is none of the special characters the parsers
branch on, nor whitespace. -/
theorem isDigit_ne_chars {c : Char} (h : c.isDigit = true) :
    c ≠ '.' ∧ c ≠ '+' ∧ c ≠ '-' ∧ c ≠ '_' ∧ c.isWhitespace = false := by
  refine ⟨?_, ?_, ?_, ?_, ?_⟩
  · intro he; subst he; exact absurd h (by decide)
  · intro he; subst he; exact absurd h (by decide)
  · intro he; subst he; exact absurd h (by decide)
  · intro he; subst he; exact absurd h (by decide)
  · cases hw : c.isWhitespace
    · rfl
    · exfalso
      simp only [Char.isWhitespace, Bool.or_eq_true, decide_eq_true_eq] at hw
      rcases hw with ((rfl | rfl) | rfl) | rfl <;> exact absurd h (by decide)

theorem digitVal_digitChar {d : Nat} (h : d < 10) : digitVal (Nat.digitChar d) = d := by
  interval_cases d <;> decide

theorem isDigit_digitChar {d : Nat} (h : d < 10) : (Nat.digitChar d).isDigit = true := by
  interval_cases d <;> decide

/-- On all-digit input the parser tail accumulates the decimal value. -/
theorem parseRest_digits (ds : List Char) : ∀ acc : Nat, (∀ c ∈ ds, c.isDigit = true) →
    parseRest acc ds = some (ds.foldl (fun a c => a * 10 + digitVal c) acc) := by
  induction ds with
  | nil => intro acc _; rfl
  | cons c cs ih =>
    intro acc h
    have hc : c.isDigit = true := h c (by simp)
    have hu : ¬(c = '_') := (isDigit_ne_chars hc).2.2.2.1
    cases cs with
    | nil =>
      rw [parseRest.eq_2, if_neg hu, if_pos hc, parseRest.eq_1]
      simp
    | cons c2 cs2 =>
      rw [parseRest.eq_3, if_neg hu, if_pos hc, ih _ (fun c' hc' => h c' (by simp [hc']))]
      simp [List.foldl_cons]

/-- On nonempty all-digit input the parser returns the decimal value. -/
theorem parseDigits_digits (ds : List Char) (hne : ds ≠ [])
    (h : ∀ c ∈ ds, c.isDigit = true) :
    parseDigits ds = some (ds.foldl (fun a c => a * 10 + digitVal c) 0) := by
  match ds, hne with
  | c :: cs, _ =>
    have hc : c.isDigit = true := h c (by simp)
    simp only [parseDigits]
    rw [if_pos hc, parseRest_digits cs _ (fun c' h' => h c' (by simp [h'])), List.foldl_cons]
    have : (0 : Nat) * 10 + digitVal c = digitVal c := by omega
    rw [this]

/-- `natToDigitsAux` with enough fuel produces a nonempty all-digit
string whose decimal value is the input. -/
theorem natToDigitsAux_spec : ∀ fuel n : Nat, n < fuel →
    natToDigitsAux fuel n ≠ [] ∧ (∀ c ∈ natToDigitsAux fuel n, c.isDigit = true) ∧
    (natToDigitsAux fuel n).foldl (fun a c => a * 10 + digitVal c) 0 = n := by
  intro fuel
  induction fuel with
  | zero => intro n h; omega
  | succ fuel ih =>
    intro n _
    by_cases h10 : n < 10
    · simp only [natToDigitsAux, if_pos h10]
      refine ⟨by simp, ?_, ?_⟩
      · intro c hc
        simp only [List.mem_singleton] at hc
        subst hc
        exact isDigit_digitChar h10
      · simp only [List.foldl_cons, List.foldl_nil]
        rw [digitVal_digitChar h10]
        omega
    · have hrec : n / 10 < fuel := by omega
      obtain ⟨hne, hdig, hval⟩ := ih (n / 10) hrec
      simp only [natToDigitsAux, if_neg h10]
      refine ⟨by simp [hne], ?_, ?_⟩
      · intro c hc
        rcases List.mem_append.mp hc with h' | h'
        · exact hdig c h'
        · simp only [List.mem_singleton] at h'
          subst h'
          exact isDigit_digitChar (by omega)
      · rw [List.foldl_append, hval]
        simp only [List.foldl_cons, List.foldl_nil]
        rw [digitVal_digitChar (show n % 10 < 10 by omega)]
        omega

theorem natToDigits_spec (n : Nat) :
    natToDigits n ≠ [] ∧ (∀ c ∈ natToDigits n, c.isDigit = true) ∧
    (natToDigits n).foldl (fun a c => a * 10 + digitVal c) 0 = n :=
  natToDigitsAux_spec (n + 1) n (by omega)

theorem zeroPad_digits {w : Nat} {ds : List Char} (h : ∀ c ∈ ds, c.isDigit = true) :
    ∀ c ∈ zeroPad w ds, c.isDigit = true := by
  intro c hc
  rcases List.mem_append.mp hc with h' | h'
  · rw [List.eq_of_mem_replicate h']; decide
  · exact h c h'

theorem zeroPad_ne_nil {w : Nat} {ds : List Char} (h : ds ≠ []) : zeroPad w ds ≠ [] := by
  simp [zeroPad, h]

theorem foldl_replicate_zero (k : Nat) :
    (List.replicate k '0').foldl (fun a c => a * 10 + digitVal c) 0 = 0 := by
  induction k with
  | zero => rfl
  | succ k ih =>
    rw [List.replicate_succ, List.foldl_cons]
    have h0 : (0 : Nat) * 10 + digitVal '0' = 0 := by decide
    rw [h0, ih]

/-- Leading zero padding does not change the decimal value. -/
theorem foldl_zeroPad (w : Nat) (ds : List Char) :
    (zeroPad w ds).foldl (fun a c => a * 10 + digitVal c) 0
      = ds.foldl (fun a c => a * 10 + digitVal c) 0 := by
  simp only [zeroPad]
  rw [List.foldl_append, foldl_replicate_zero]

/-- Every character of a padded integer is a sign or a digit. -/
theorem fmtIntPad_chars {w : Nat} {n : Int} :
    ∀ c ∈ fmtIntPad w n, c = '-' ∨ c.isDigit = true := by
  intro c hc
  by_cases h : n < 0
  · simp only [fmtIntPad, if_pos h] at hc
    rcases List.mem_cons.mp hc with h' | h'
    · exact Or.inl h'
    · exact Or.inr (zeroPad_digits (natToDigits_spec _).2.1 c h')
  · simp only [fmtIntPad, if_neg h] at hc
    exact Or.inr (zeroPad_digits (natToDigits_spec _).2.1 c hc)

theorem dropWhile_eq_self_of {p : Char → Bool} {xs : List Char}
    (h : ∀ c ∈ xs, p c = false) : xs.dropWhile p = xs := by
  cases xs with
  | nil => rfl
  | cons c cs => simp [List.dropWhile_cons, h c (by simp)]

theorem pyStrip_eq_self {xs : List Char} (h : ∀ c ∈ xs, c.isWhitespace = false) :
    pyStrip xs = xs := by
  unfold pyStrip
  rw [dropWhile_eq_self_of h,
    dropWhile_eq_self_of (fun c hc => h c (List.mem_reverse.mp hc)), List.reverse_reverse]

theorem fmtIntPad_no_ws {w : Nat} {n : Int} :
    ∀ c ∈ fmtIntPad w n, c.isWhitespace = false := by
  intro c hc
  rcases fmtIntPad_chars c hc with h' | h'
  · subst h'; decide
  · exact (isDigit_ne_chars h').2.2.2.2

/-- Zero-padded integer formatting round-trips through the Python
integer parser. -/
theorem pyInt_fmtIntPad (w : Nat) (n : Int) : pyInt (fmtIntPad w n) = some n := by
  have hstrip : pyStrip (fmtIntPad w n) = fmtIntPad w n := pyStrip_eq_self fmtIntPad_no_ws
  by_cases h : n < 0
  · have hdef : fmtIntPad w n = '-' :: zeroPad (w - 1) (natToDigits n.natAbs) := by
      simp [fmtIntPad, h]
    obtain ⟨hne, hdig, hval⟩ := natToDigits_spec n.natAbs
    unfold pyInt
    rw [hstrip, hdef, List.head?_cons, List.tail_cons,
      if_neg (by decide : ¬(some '-' = some '+')), if_pos rfl]
    rw [parseDigits_digits _ (zeroPad_ne_nil hne) (zeroPad_digits hdig), foldl_zeroPad, hval]
    simp only [Option.map_some']
    congr 1
    simp only [Int.ofNat_eq_coe]
    omega
  · have hdef : fmtIntPad w n = zeroPad w (natToDigits n.toNat) := by
      simp [fmtIntPad, h]
    obtain ⟨hne, hdig, hval⟩ := natToDigits_spec n.toNat
    obtain ⟨c, cs, hl⟩ := List.exists_cons_of_ne_nil (@zeroPad_ne_nil w _ hne)
    have hc : c.isDigit = true := by
      apply zeroPad_digits hdig
      rw [hl]
      exact List.mem_cons_self c cs
    unfold pyInt
    rw [hstrip, hdef, hl, List.head?_cons, List.tail_cons,
      if_neg (fun heq => (isDigit_ne_chars hc).2.1 (Option.some_inj.mp heq)),
      if_neg (fun heq => (isDigit_ne_chars hc).2.2.1 (Option.some_inj.mp heq)), ← hl,
      parseDigits_digits _ (@zeroPad_ne_nil w _ hne) (zeroPad_digits hdig), foldl_zeroPad, hval]
    simp only [Option.map_some']
    congr 1
    simp only [Int.ofNat_eq_coe]
    omega

/-! ## `stripHK` lemmas -/

/-- Appending the `".HK"` suffix never changes the result of deleting
all `".HK"` occurrences: no new occurrence can span the boundary. -/
theorem stripHK_append_hk (xs : List Char) : stripHK (xs ++ hkSuffix) = stripHK xs := by
  induction xs using stripHK.induct with
  | case1 rest ih =>
    simp only [List.cons_append, stripHK]
    exact ih
  | case2 c rest h ih =>
    rw [List.cons_append, stripHK.eq_2 c (rest ++ hkSuffix), stripHK.eq_2 c rest h, ih]
    intro r1 hc hr
    rcases rest with _ | ⟨a, _ | ⟨b, t⟩⟩
    · simp [hkSuffix] at hr
    · simp [hkSuffix] at hr
    · simp only [List.cons_append] at hr
      rw [List.cons_eq_cons] at hr
      obtain ⟨ha, hr⟩ := hr
      rw [List.cons_eq_cons] at hr
      obtain ⟨hb, _⟩ := hr
      exact h t hc (by rw [ha, hb])
  | case3 => decide

/-- A string without `'.'` is unchanged by `".HK"` deletion. -/
theorem stripHK_of_no_dot : ∀ xs : List Char, (∀ c ∈ xs, ¬(c = '.')) → stripHK xs = xs := by
  intro xs
  induction xs using stripHK.induct with
  | case1 rest ih =>
    intro h
    exact absurd rfl (h '.' (by simp))
  | case2 c rest h ih =>
    intro hno
    rw [stripHK.eq_2 c rest h, ih (fun c' hc' => hno c' (by simp [hc']))]
  | case3 => intro _; rfl

/-! ## Claim C1 — ticker normalizer contract -/

/-- Claim C1, counterexample: the claim describes the normalizer as
stripping only a *trailing* `".HK"` suffix, but the source removes
every occurrence.  On `".HK0700"` the claim's reading leaves a
non-numeric remainder and predicts `".HK0700.HK"`, while
`format_hk_ticker` deletes the embedded `".HK"`, parses `0700` and
returns `"0700.HK"`. -/
theorem c1_counterexample :
    specNormalizeTrailing ".HK0700".data ≠ format_hk_ticker ".HK0700".data ∧
    format_hk_ticker ".HK0700".data = "0700.HK".data ∧
    specNormalizeTrailing ".HK0700".data = ".HK0700.HK".data := by
  refine ⟨by decide, by decide, by decide⟩

/-- Claim C1 (amended): for every input string the normalizer removes
**all** `".HK"` occurrences and trims whitespace; if the remainder
parses as a base-10 integer the output is that integer zero-padded to
4 digits followed by `".HK"`, otherwise the original string with
`".HK"` appended unless it already ends with `".HK"`; in particular
the four quoted examples hold. -/
theorem c1_claim :
    (∀ t : List Char, format_hk_ticker t = specNormalizeAmended t) ∧
    format_hk_ticker "700".data = "0700.HK".data ∧
    format_hk_ticker "0700.HK".data = "0700.HK".data ∧
    format_hk_ticker "1810".data = "1810.HK".data ∧
    format_hk_ticker "ABCXYZ".data = "ABCXYZ.HK".data :=
  ⟨fun _ => rfl, by decide, by decide, by decide, by decide⟩

/-! ## Claim C2 — idempotence of the normalizer -/

/-- Claim C2: ticker normalization is idempotent for every input
string; in particular canonical `NNNN.HK` outputs are fixed points. -/
theorem c2_claim :
    ∀ t : List Char, format_hk_ticker (format_hk_ticker t) = format_hk_ticker t := by
  intro t
  cases h : pyInt (pyStrip (stripHK t)) with
  | some n =>
    have h1 : format_hk_ticker t = fmtIntPad 4 n ++ hkSuffix := by
      simp [format_hk_ticker, h]
    have hnodot : ∀ c ∈ fmtIntPad 4 n, ¬(c = '.') := by
      intro c hc hce
      subst hce
      rcases fmtIntPad_chars _ hc with h' | h'
      · exact absurd h' (by decide)
      · exact absurd h' (by decide)
    have h2 : stripHK (fmtIntPad 4 n ++ hkSuffix) = fmtIntPad 4 n := by
      rw [stripHK_append_hk, stripHK_of_no_dot _ hnodot]
    have h3 : pyInt (pyStrip (stripHK (fmtIntPad 4 n ++ hkSuffix))) = some n := by
      rw [h2, pyStrip_eq_self fmtIntPad_no_ws]
      exact pyInt_fmtIntPad 4 n
    rw [h1]
    simp [format_hk_ticker, h3]
  | none =>
    by_cases hs : List.isSuffixOf hkSuffix t = true
    · simp [format_hk_ticker, h, hs]
    · have h1 : format_hk_ticker t = t ++ hkSuffix := by
        simp [format_hk_ticker, h, hs]
      have h2 : pyInt (pyStrip (stripHK (t ++ hkSuffix))) = none := by
        rw [stripHK_append_hk]
        exact h
      have h3 : List.isSuffixOf hkSuffix (t ++ hkSuffix) = true := by
        simp [List.isSuffixOf_iff_suffix]
      rw [h1]
      simp [format_hk_ticker, h2, h3]

/-! ## Claim C3 — trend regime -/

/-- Claim C3: the trend label is total and the four labels are characterized
by the source's priority-ordered conditions (so exactly one applies); on an
exact tie with either moving average the strictly-greater first branch is
not taken, so the label is never the bullish one. -/
theorem c3_claim :
    ∀ close sma20 sma50 : Rat,
      (ma_status close sma20 sma50 = "多头排列" ∨ ma_status close sma20 sma50 = "空头排列" ∨
        ma_status close sma20 sma50 = "短期反弹" ∨ ma_status close sma20 sma50 = "短期回调") ∧
      (ma_status close sma20 sma50 = "多头排列" ↔ close > sma20 ∧ close > sma50) ∧
      (ma_status close sma20 sma50 = "空头排列" ↔
        ¬(close > sma20 ∧ close > sma50) ∧ (close < sma20 ∧ close < sma50)) ∧
      (ma_status close sma20 sma50 = "短期反弹" ↔
        ¬(close > sma20 ∧ close > sma50) ∧ ¬(close < sma20 ∧ close < sma50) ∧ close > sma20) ∧
      (ma_status close sma20 sma50 = "短期回调" ↔
        ¬(close > sma20 ∧ close > sma50) ∧ ¬(close < sma20 ∧ close < sma50) ∧ ¬(close > sma20)) ∧
      ((close = sma20 ∨ close = sma50) → ma_status close sma20 sma50 ≠ "多头排列") := by
  intro c s20 s50
  unfold ma_status
  refine ⟨?_, ?_, ?_, ?_, ?_, ?_⟩
  · split_ifs <;> simp
  · split_ifs with h1 h2 h3 <;> simp_all
  · split_ifs with h1 h2 h3 <;> simp_all
  · split_ifs with h1 h2 h3 <;> simp_all
  · split_ifs with h1 h2 h3 <;> simp_all
  · intro htie
    split_ifs with h1 h2 h3
    · rcases htie with heq | heq
      · exact absurd h1.1 (by rw [heq]; exact lt_irrefl _)
      · exact absurd h1.2 (by rw [heq]; exact lt_irrefl _)
    · simp
    · simp
    · simp

/-- Claim C3 witness: a concrete tie (`close = SMA_20 = 5 > SMA_50 = 3`)
is not labelled bullish. -/
theorem c3_witness : ma_status 5 5 3 ≠ "多头排列" :=
  (c3_claim 5 5 3).2.2.2.2.2 (Or.inl rfl)

/-! ## Claim C4 — composite score and recommendation -/

/-- Claim C4: the sequentially accumulated composite score equals the
sum of the five independent signals, and the recommendation tiers are
exactly `score ≥ 4` → bullish, `score ≤ 1` → cautious, otherwise
neutral. -/
theorem c4_claim :
    (∀ lc pc s20 s50 r m ms : Rat,
      composite_score lc pc s20 s50 r m ms = specScore lc pc s20 s50 r m ms) ∧
    (∀ s : Rat,
      (recommendation s = "积极看多" ↔ 4 ≤ s) ∧
      (recommendation s = "谨慎观望" ↔ s ≤ 1) ∧
      (recommendation s = "中性持有" ↔ 1 < s ∧ s < 4)) := by
  constructor
  · intro lc pc s20 s50 r m ms
    have hiff : (r < 70 ∧ r > 40) ↔ (40 < r ∧ r < 70) := by
      constructor
      · intro h'
        exact ⟨h'.2, h'.1⟩
      · intro h'
        exact ⟨h'.2, h'.1⟩
    simp only [composite_score, specScore, hiff]
    split_ifs <;> ring
  · intro s
    refine ⟨?_, ?_, ?_⟩ <;> unfold recommendation
    · split_ifs with ha hb
      · exact iff_of_true rfl ha
      · exact iff_of_false (by decide) ha
      · exact iff_of_false (by decide) ha
    · split_ifs with ha hb
      · exact iff_of_false (by decide) (by intro h1; exact absurd ha (by linarith))
      · exact iff_of_true rfl hb
      · exact iff_of_false (by decide) hb
    · split_ifs with ha hb
      · exact iff_of_false (by decide) (by rintro ⟨-, h4⟩; exact absurd ha (by linarith))
      · exact iff_of_false (by decide) (by rintro ⟨h1, -⟩; exact absurd hb (by linarith))
      · exact iff_of_true rfl ⟨lt_of_not_le hb, lt_of_not_le ha⟩

/-- Claim C4 witness: the spec's own bearish example snapshot
(`close 80, prev 100, SMA20 100, SMA50 110, RSI 75, MACD -1,
signal 0`) scores 0 and is rated cautious. -/
theorem c4_witness :
    composite_score 80 100 100 110 75 (-1) 0 = specScore 80 100 100 110 75 (-1) 0 ∧
    recommendation (composite_score 80 100 100 110 75 (-1) 0) = "谨慎观望" :=
  ⟨c4_claim.1 80 100 100 110 75 (-1) 0,
   (c4_claim.2 (composite_score 80 100 100 110 75 (-1) 0)).2.1.mpr (by decide)⟩

/-! ## Claim C9 — substring-based duplicate suppression -/

/-- Claim C9: adding a ticker to the sidebar text leaves it unchanged
exactly when the code occurs as a substring of the current text, and
otherwise appends the code (space separated) at the end. -/
theorem c9_claim :
    ∀ current code : String,
      (code.data <:+: current.data → add_ticker current code = current) ∧
      (¬(code.data <:+: current.data) → add_ticker current code = current ++ " " ++ code) := by
  intro cur code
  constructor
  · intro h
    simp [add_ticker, h]
  · intro h
    simp [add_ticker, h]

/-- Claim C9 witness: `"700"` is treated as already present because it
occurs inside `"19700"`, while the exact code `"0700"` is appended. -/
theorem c9_witness :
    add_ticker "0005 19700" "700" = "0005 19700" ∧
    add_ticker "0005 19700" "0700" = "0005 19700" ++ " " ++ "0700" :=
  ⟨(c9_claim "0005 19700" "700").1 (by decide),
   (c9_claim "0005 19700" "0700").2 (by decide)⟩

/-! ## Claim C5 — indicator engine on a zero-row series -/

/-- Claim C5, counterexample: a zero-row OHLCV frame is returned by
the indicator engine *unchanged* (early return), so the nine derived
columns are **not** present in the result, contradicting the claim
that they are present-but-undefined. -/
theorem c5_counterexample :
    calculate_technical_indicators taZero (some emptyOHLCV) = some emptyOHLCV ∧
    emptyOHLCV.getCol "SMA_20" = none ∧ emptyOHLCV.getCol "SMA_50" = none ∧
    emptyOHLCV.getCol "BB_High" = none ∧ emptyOHLCV.getCol "BB_Mid" = none ∧
    emptyOHLCV.getCol "BB_Low" = none ∧ emptyOHLCV.getCol "RSI" = none ∧
    emptyOHLCV.getCol "MACD" = none ∧ emptyOHLCV.getCol "MACD_Signal" = none ∧
    emptyOHLCV.getCol "MACD_Diff" = none := by
  refine ⟨rfl, ?_, ?_, ?_, ?_, ?_, ?_, ?_, ?_, ?_⟩ <;> rfl

/-- Claim C5 (amended): feeding `None` or a zero-row series into the
indicator engine does not raise and returns the input unchanged,
without adding the nine derived columns; regardless of what the
external indicator library computes. -/
theorem c5_claim :
    ∀ (ta : TaLib) (df : DataFrame), df.nrows = 0 →
      calculate_technical_indicators ta (some df) = some df ∧
      calculate_technical_indicators ta none = none := by
  intro ta df h
  constructor
  · simp [calculate_technical_indicators, DataFrame.isEmpty, h]
  · rfl

/-- Claim C5 witness: the amended statement applied to a concrete
zero-row close-only frame. -/
theorem c5_witness :
    calculate_technical_indicators taZero (some emptyCloseOnly) = some emptyCloseOnly ∧
    calculate_technical_indicators taZero none = none :=
  c5_claim taZero emptyCloseOnly rfl

/-! ## Claim C6 — fetcher never propagates provider faults -/

/-- Claim C6: for every provider behavior, ticker, period and
interval, `get_stock_data` returns either a non-empty frame or
`none`; a raised provider exception yields `none`, an empty provider
result yields `none`, and a non-empty provider result is passed
through. -/
theorem c6_claim :
    ∀ (history : String → String → String → Except String DataFrame) (t p i : String),
      (get_stock_data history t p i = none ∨
        ∃ df, get_stock_data history t p i = some df ∧ 0 < df.nrows) ∧
      (∀ e, history (String.mk (format_hk_ticker t.data)) p i = .error e →
        get_stock_data history t p i = none) ∧
      (∀ df, history (String.mk (format_hk_ticker t.data)) p i = .ok df → df.nrows = 0 →
        get_stock_data history t p i = none) ∧
      (∀ df, history (String.mk (format_hk_ticker t.data)) p i = .ok df → 0 < df.nrows →
        get_stock_data history t p i = some df) := by
  intro h t p i
  refine ⟨?_, ?_, ?_, ?_⟩
  · unfold get_stock_data
    cases hh : h (String.mk (format_hk_ticker t.data)) p i with
    | error e => exact Or.inl rfl
    | ok df =>
      by_cases he : df.nrows = 0
      · exact Or.inl (by simp [DataFrame.isEmpty, he])
      · exact Or.inr ⟨df, by simp [DataFrame.isEmpty, he], by omega⟩
  · intro e he
    unfold get_stock_data
    rw [he]
  · intro df hok h0
    unfold get_stock_data
    rw [hok]
    simp [DataFrame.isEmpty, h0]
  · intro df hok h0
    unfold get_stock_data
    rw [hok]
    have hne : df.nrows ≠ 0 := by omega
    simp [DataFrame.isEmpty, hne]

/-- Claim C6 witness: the three provider outcomes at concrete inputs:
a raising provider and an empty-history provider both yield `none`,
and a one-row history is passed through. -/
theorem c6_witness :
    get_stock_data providerRaises "700" "1y" "1d" = none ∧
    get_stock_data providerEmpty "700" "1y" "1d" = none ∧
    get_stock_data providerOneRow80 "700" "1y" "1d" = some oneRow80 :=
  ⟨(c6_claim providerRaises "700" "1y" "1d").2.1 "provider failure" rfl,
   (c6_claim providerEmpty "700" "1y" "1d").2.2.1 emptyOHLCV rfl rfl,
   (c6_claim providerOneRow80 "700" "1y" "1d").2.2.2 oneRow80 rfl (by decide)⟩

/-! ## Claim C7 — Sina name-resolver batching -/

/-- The chunk count of the Sina batching loop is the ceiling of
`length / 20`. -/
theorem chunksOf20_length : ∀ l : List String, (chunksOf20 l).length = (l.length + 19) / 20 := by
  intro l
  induction l using chunksOf20.induct with
  | case1 => simp [chunksOf20]
  | case2 x xs ih =>
    simp only [chunksOf20, List.length_cons, List.length_take, List.length_drop] at *
    omega

/-- Every chunk the Sina batching loop builds has at most 20 codes. -/
theorem chunksOf20_mem_length : ∀ (l : List String) (c : List String),
    c ∈ chunksOf20 l → c.length ≤ 20 := by
  intro l
  induction l using chunksOf20.induct with
  | case1 =>
    intro c hc
    simp [chunksOf20] at hc
  | case2 x xs ih =>
    intro c hc
    simp only [chunksOf20, List.mem_cons] at hc
    rcases hc with rfl | hc
    · simp [List.length_take]
    · exact ih c hc

/-- `filterMap` preserves length when every element maps to `some`. -/
theorem filterMap_length_all_some {α β : Type} (f : α → Option β) :
    ∀ l : List α, (∀ x ∈ l, (f x).isSome) → (l.filterMap f).length = l.length := by
  intro l
  induction l with
  | nil => intro _; rfl
  | cons a l ih =>
    intro h
    obtain ⟨b, hb⟩ := Option.isSome_iff_exists.mp (h a (by simp))
    rw [List.filterMap_cons_some hb, List.length_cons, List.length_cons,
      ih (fun x hx => h x (by simp [hx]))]

/-- Claim C7: on a list of integer-parseable codes, every batch
request carries at most 20 codes, a 20-code list issues exactly one
request, and a 21-code list issues exactly two. -/
theorem c7_claim :
    ∀ ts : List String, (∀ t ∈ ts, (pyInt (pyStrip (stripHK t.data))).isSome) →
      (∀ chunk ∈ chunksOf20 (ts.filterMap sina_code_of), chunk.length ≤ 20) ∧
      (ts.length = 20 → (get_stock_names_sina_urls ts).length = 1) ∧
      (ts.length = 21 → (get_stock_names_sina_urls ts).length = 2) := by
  intro ts hall
  have hsome : ∀ t ∈ ts, (sina_code_of t).isSome := by
    intro t ht
    have h1 := hall t ht
    unfold sina_code_of
    cases hp : pyInt (pyStrip (stripHK t.data)) with
    | none => rw [hp] at h1; exact absurd h1 (by simp)
    | some n => simp
  have hlen : (ts.filterMap sina_code_of).length = ts.length :=
    filterMap_length_all_some sina_code_of ts hsome
  refine ⟨fun c hc => chunksOf20_mem_length _ c hc, ?_, ?_⟩
  · intro h20
    simp only [get_stock_names_sina_urls, List.length_map]
    rw [chunksOf20_length, hlen, h20]
  · intro h21
    simp only [get_stock_names_sina_urls, List.length_map]
    rw [chunksOf20_length, hlen, h21]

/-- Claim C7 witness: twenty copies of the parseable code `"1"` issue
one request; twenty-one issue two. -/
theorem c7_witness :
    (get_stock_names_sina_urls (List.replicate 20 "1")).length = 1 ∧
    (get_stock_names_sina_urls (List.replicate 21 "1")).length = 2 :=
  ⟨(c7_claim (List.replicate 20 "1") (by decide)).2.1 (by decide),
   (c7_claim (List.replicate 21 "1") (by decide)).2.2 (by decide)⟩

/-! ## Claim C8 — ticker list store round-trip -/

/-- Claim C8, counterexample: loading when the file does not exist
returns the `None` no-data signal, not the empty list the claim
promises. -/
theorem c8_counterexample :
    load_tickers_from_json none = none ∧
    load_tickers_from_json none ≠ some (JsonVal.arr []) := by
  exact ⟨rfl, by simp [load_tickers_from_json]⟩

/-- Claim C8 (amended): saving a ticker list and loading it back
returns exactly the same list in the same order (the stored JSON list
determines the ticker list uniquely), while loading a missing file
returns the `None` no-data signal — not an error, but also not the
empty list; callers coalesce it to a default. -/
theorem c8_claim :
    ∀ ts : List String,
      load_tickers_from_json (save_tickers_to_json ts)
        = some (JsonVal.arr (ts.map JsonVal.str)) ∧
      load_tickers_from_json none = none ∧
      (∀ ts2 : List String,
        JsonVal.arr (ts.map JsonVal.str) = JsonVal.arr (ts2.map JsonVal.str) → ts = ts2) := by
  intro ts
  refine ⟨rfl, rfl, ?_⟩
  intro ts2 h
  have h2 : ts.map JsonVal.str = ts2.map JsonVal.str := by injection h
  have hinj : Function.Injective JsonVal.str := fun a b hab => by injection hab
  exact List.map_injective_iff.mpr hinj h2

/-- Claim C8 witness: the round trip at the spec's example list. -/
theorem c8_witness :
    load_tickers_from_json (save_tickers_to_json ["0700", "9988"])
      = some (JsonVal.arr [JsonVal.str "0700", JsonVal.str "9988"]) ∧
    ["0700", "9988"] = ["0700", "9988"] :=
  ⟨(c8_claim ["0700", "9988"]).1, (c8_claim ["0700", "9988"]).2.2 ["0700", "9988"] rfl⟩

/-! ## Claim C10 — exchange-rate fallback behavior -/

/-- Claim C10, counterexample: when the provider yields non-empty
history, `get_exchange_rate` passes its last close through without
validation, so the result is *not* always positive: a degenerate quote
of `-1` is returned as `-1`. -/
theorem c10_counterexample :
    get_exchange_rate rateProviderNeg "HKD" "CNY" = -1 ∧
    ¬(0 < get_exchange_rate rateProviderNeg "HKD" "CNY") := by
  exact ⟨rfl, by decide⟩

/-- Claim C10 (amended): `get_exchange_rate` never raises; equal
currencies yield `1.0` whatever the provider does (no provider
influence); a raised exception or empty history falls back to the
hardcoded constants (`0.92` HKD→CNY, `1.09` CNY→HKD, `1.0` for any
other pair — all positive); but a non-empty history has its last
close passed through unvalidated, so the result is positive only when
the provider's quote is. -/
theorem c10_claim :
    ∀ (h1d : String → Except String DataFrame) (f t : String),
      (f = t → get_exchange_rate h1d f t = 1) ∧
      0 < hardcoded_rate f t ∧
      hardcoded_rate "HKD" "CNY" = 92 / 100 ∧
      hardcoded_rate "CNY" "HKD" = 109 / 100 ∧
      (¬(f = "HKD" ∧ t = "CNY") → ¬(f = "CNY" ∧ t = "HKD") → hardcoded_rate f t = 1) ∧
      (∀ e, f ≠ t → h1d (f ++ t ++ "=X") = .error e →
        get_exchange_rate h1d f t = hardcoded_rate f t) ∧
      (∀ df, f ≠ t → h1d (f ++ t ++ "=X") = .ok df → df.nrows = 0 →
        get_exchange_rate h1d f t = hardcoded_rate f t) ∧
      (∀ df v, f ≠ t → h1d (f ++ t ++ "=X") = .ok df → df.nrows ≠ 0 →
        df.lastClose = some v → get_exchange_rate h1d f t = v) := by
  intro h1d f t
  refine ⟨?_, ?_, rfl, rfl, ?_, ?_, ?_, ?_⟩
  · intro heq
    simp [get_exchange_rate, heq]
  · unfold hardcoded_rate
    split_ifs <;> norm_num
  · intro hn1 hn2
    simp [hardcoded_rate, hn1, hn2]
  · intro e hne herr
    unfold get_exchange_rate
    rw [if_neg hne, herr]
  · intro df hne hok h0
    unfold get_exchange_rate
    rw [if_neg hne, hok]
    simp [DataFrame.isEmpty, h0]
  · intro df v hne hok h0 hlast
    unfold get_exchange_rate
    rw [if_neg hne, hok]
    simp [DataFrame.isEmpty, h0, hlast]

/-- Claim C10 witness: the amended statement at concrete providers —
same currency, raising provider, empty history, and the `-1` quote
passed through. -/
theorem c10_witness :
    get_exchange_rate rateProviderRaises "HKD" "HKD" = 1 ∧
    get_exchange_rate rateProviderRaises "HKD" "CNY" = hardcoded_rate "HKD" "CNY" ∧
    get_exchange_rate rateProviderEmpty "CNY" "HKD" = hardcoded_rate "CNY" "HKD" ∧
    get_exchange_rate rateProviderNeg "HKD" "CNY" = -1 :=
  ⟨(c10_claim rateProviderRaises "HKD" "HKD").1 rfl,
   (c10_claim rateProviderRaises "HKD" "CNY").2.2.2.2.2.1 "provider failure" (by decide) rfl,
   (c10_claim rateProviderEmpty "CNY" "HKD").2.2.2.2.2.2.1 emptyOHLCV (by decide) rfl rfl,
   (c10_claim rateProviderNeg "HKD" "CNY").2.2.2.2.2.2.2 negQuoteFrame (-1) (by decide) rfl
     (by decide) rfl⟩
